import Mathlib

/-!
Verification development for the `rusted-mapper` repository (crates
`rm-core` and `rm-gui`): a GTFO log-file tailer and stateful parser.

The shallow embedding below translates, from the Rust source:

* `rm-core/src/data.rs` — the latest data model revision (`Zone` with its
  hand-written `Ord`/`PartialOrd` and derived `PartialEq`, `Rundown` with
  `from_repr`, `GatherItem`, `ItemIdentifier`, `Token`, `Level` with its
  two `Index` impls) — namespace `RmData`;
* `rm-core/src/parser.rs` — the parser thread `Parser::parser` together
  with its regex catalog (`re::*`), state enum, buffer/cursor manager and
  message types — namespace `RmParser`.  The `(?m)`-anchored regexes are
  embedded as line-oriented matchers over `List Char`; the buffer is split
  at `'\n'` exactly where the multiline anchors `^`/`$` of the source
  regexes match.  Fallible `str::parse::<uN>` conversions and the `?`
  operator of `Parser::parser` are modelled with `Except Unit`;
* the Tailer contract and the expedition-index correction, whose defining
  code is a later revision absent from the source snapshot (only its
  callers — `Parser::parser`'s `TailMsg` consumption — and declarations —
  `data.rs`'s `Token::Expedition` — are present), are modelled from the
  spec in namespaces `RmTail` and `RmSpec`.
-/

/-! ### Generic character/list helpers used by the regex embedding -/

/-- Digit-string value, as produced by `str::parse` on a `\d+` capture. -/
def toNatDigits (ds : List Char) : Nat :=
  ds.foldl (fun a c => a * 10 + (c.toNat - '0'.toNat)) 0

/-- `str::parse::<u32>` on a captured digit string: overflow is an `Err`
that the `?` operator in `Parser::parser` propagates. -/
def parseU32 (ds : List Char) : Except Unit Nat :=
  if toNatDigits ds < 4294967296 then .ok (toNatDigits ds) else .error ()

/-- `str::parse::<u8>` on a captured digit string (rundown code). -/
def parseU8 (ds : List Char) : Except Unit Nat :=
  if toNatDigits ds < 256 then .ok (toNatDigits ds) else .error ()

/-- The regex character class `\s`. -/
def isWsChar (c : Char) : Bool :=
  c = ' ' || c = '\t' || c = '\n' || c = '\r' || c = '\x0b' || c = '\x0c'

/-- The regex character class `\w`. -/
def isWordChar (c : Char) : Bool :=
  c.isAlphanum || c = '_'

/-- Match a literal fragment of a regex, returning the rest of the line. -/
def litM (lit : List Char) (cs : List Char) : Option (List Char) :=
  if lit.isPrefixOf cs then some (cs.drop lit.length) else none

/-- Match one `\s`. -/
def wsOne : List Char → Option (List Char)
  | c :: rest => if isWsChar c then some rest else none
  | [] => none

/-- Greedy `(\d+)` capture: the maximal digit run, which must be nonempty. -/
def digitsM (cs : List Char) : Option (List Char × List Char) :=
  match cs.takeWhile Char.isDigit with
  | [] => none
  | ds => some (ds, cs.drop ds.length)

/-- Greedy `(\w+)` capture: the maximal word-character run (nonempty). -/
def wordM (cs : List Char) : Option (List Char × List Char) :=
  match cs.takeWhile isWordChar with
  | [] => none
  | w => some (w, cs.drop w.length)

/-- Substring test (used for fragments reached through a greedy `.*`). -/
def containsSub (needle : List Char) : List Char → Bool
  | [] => needle.isPrefixOf []
  | c :: rest => needle.isPrefixOf (c :: rest) || containsSub needle rest

/-- Greedy `.*p`: the match of `p` at the last position where it succeeds. -/
def lastPosMatch (p : List Char → Option α) : List Char → Option α
  | [] => p []
  | c :: rest =>
    match lastPosMatch p rest with
    | some r => some r
    | none => p (c :: rest)

/-- Lazy `.*?p`: the match of `p` at the first position where it succeeds. -/
def firstPosMatch (p : List Char → Option α) : List Char → Option α
  | [] => p []
  | c :: rest =>
    match p (c :: rest) with
    | some r => some r
    | none => firstPosMatch p rest

/-- Split a character buffer at `'\n'`, the positions where the `(?m)`
anchors `^`/`$` of the source regexes match (`String::split_on`-like:
a trailing newline yields a final empty partial line). -/
def splitLines : List Char → List (List Char)
  | [] => [[]]
  | '\n' :: rest => [] :: splitLines rest
  | c :: rest =>
    match splitLines rest with
    | l :: ls => (c :: l) :: ls
    | [] => [[c]]

/-- UTF-8 byte length of a line, for `regex::Match::end` byte offsets. -/
def utf8Len (l : List Char) : Nat :=
  l.foldl (fun a c => a + c.utf8Size) 0

/-- Byte offset of the end of line `i` in the buffer (the `m.end()` that
`Parser::parser` stores into `parser_manager.pos`: the source regexes all
end in `.*$`, so a match ends at the end of its final line). -/
def byteEnd (lines : List (List Char)) (i : Nat) : Nat :=
  (lines.take i).foldl (fun a l => a + utf8Len l + 1) 0 + utf8Len (lines.getD i [])

/-- Index of the last element satisfying `p` (`Iterator::last` over the
matches of a `(?m)` regex, counted in lines). -/
def lastIdxWhere (p : α → Bool) : List α → Option Nat
  | [] => none
  | x :: rest =>
    match lastIdxWhere p rest with
    | some i => some (i + 1)
    | none => if p x then some 0 else none

/-- Last line (index and captures) on which the line matcher `p` succeeds:
`captures_iter(&buffer).last()` for a single-line `(?m)` pattern. -/
def lastMatchIdx (p : List Char → Option α) : List (List Char) → Option (Nat × α)
  | [] => none
  | l :: rest =>
    match lastMatchIdx p rest with
    | some (i, a) => some (i + 1, a)
    | none =>
      match p l with
      | some a => some (0, a)
      | none => none

namespace RmData

/-! ### `rm-core/src/data.rs` — the latest data-model revision -/

/-- `data.rs` `Zone` (derives `PartialEq`/`Eq` over all five fields; its
`Ord`/`PartialOrd` are hand-written further below). -/
structure Zone where
  alias_ : Nat
  local_ : Nat
  dimension : String
  layer : String
  area : Option Char
deriving DecidableEq, Repr

/-- `data.rs` `Rundown` (`#[repr(u16)]`, `strum::FromRepr`, `Modded` is
`#[default]` with discriminant 0). -/
inductive Rundown where
  | Modded
  | R7
  | R1
  | R2
  | R3
  | R8
  | R4
  | R5
  | Tutorial
  | R6
deriving DecidableEq, Repr

/-- `strum`-generated `Rundown::from_repr` over the `u16` discriminants
`Modded = 0, R7 = 31, R1 = 32, R2 = 33, R3 = 34, R8 = 35, R4 = 37,
R5 = 38, Tutorial = 39, R6 = 41`. -/
def Rundown.fromRepr (n : Nat) : Option Rundown :=
  if n = 0 then some .Modded
  else if n = 31 then some .R7
  else if n = 32 then some .R1
  else if n = 33 then some .R2
  else if n = 34 then some .R3
  else if n = 35 then some .R8
  else if n = 37 then some .R4
  else if n = 38 then some .R5
  else if n = 39 then some .Tutorial
  else if n = 41 then some .R6
  else none

/-- `Rundown::from_repr(code).unwrap_or(Rundown::Modded)`
(parser.rs line 425 / spec §3 "Rundown"). -/
def resolveRundown (n : Nat) : Rundown :=
  (Rundown.fromRepr n).getD .Modded

/-- `data.rs` `GatherItem` (latest, string-keyed revision). -/
inductive GatherItem where
  | Key (name dimension : String) (zone ri : Nat)
  | BulkheadKey (name : String)
  | HSU (areaId : Nat) (areaName : Char)
  | Generator (name : String) (itemIdx idx : Nat)
  | ID (container : String) (seed : Nat)
  | PD (container : String) (seed : Nat)
  | Cell (spawnZoneIdx : Nat)
  | FogTurbine (name : String)
  | Neonate (name : String)
  | Cryo (name : String)
  | GLP1 (container : String) (seed : Nat)
  | OSIP (container : String) (seed : Nat)
  | Datasphere (spawnZoneIdx : Nat)
  | PlantSample (container : String) (seed : Nat)
  | HiSec (name : String)
  | DataCube (container : String) (seed : Nat)
  | GLP2 (container : String) (seed : Nat)
  | Cargo (name : String)
  | Seeded (locker : String) (seed : Nat)
deriving DecidableEq, Repr

/-- `data.rs` `ItemIdentifier` (`#[repr(u8)]` plus an `Unknown(u8)`
fallback variant). -/
inductive ItemIdentifier where
  | ID
  | PD
  | Cell
  | FogTurbine
  | Neonate
  | Cryo
  | GLP1
  | OSIP
  | Datasphere
  | PlantSample
  | HiSec
  | MWP
  | DataCubeR8
  | DataCube
  | GLP2
  | Cargo
  | Unknown (code : Nat)
deriving DecidableEq, Repr

/-- `data.rs` `Token` — the event alphabet of the latest parser revision. -/
inductive Token where
  | Seeds (build host session : Nat)
  | Expedition (rundown : Rundown) (tier : String) (exp : Nat)
  | Zone (zone : Zone)
  | Start
  | Split
  | End
  | Gatherable (localIdx : Nat) (dimension : String) (item : GatherItem)
  | Uncategorized (id : ItemIdentifier) (count : Nat)
  | Reset
deriving DecidableEq, Repr

/-- `data.rs` `Level`.  The `HashMap<Zone, GatherItem>` field is embedded
as an association list; the claims below only touch `zones`. -/
structure Level where
  rundown : Option Rundown
  tier : Option String
  exp : Option Nat
  zones : List Zone
  gathatableItems : List (Zone × GatherItem)
  uncategorized : List ItemIdentifier
deriving DecidableEq, Repr

/-- `impl Index<(u32, String)> for Level` (data.rs lines 155-164):
`self.zones.iter().find(|v| v.alias == index.0 && v.dimension.eq(&index.1))`
followed by `.unwrap()`.  The `.unwrap` panic on a missing key is the
`none` value here; a `some` is the zone the `unwrap` returns. -/
def Level.indexPair (l : Level) (index : Nat × String) : Option Zone :=
  l.zones.find? (fun v => v.alias_ == index.1 && v.dimension == index.2)

/-- `impl Index<u32> for Level` (data.rs lines 166-172):
`self.zones.iter().find(|v| v.alias == index).unwrap()`. -/
def Level.indexAlias (l : Level) (index : Nat) : Option Zone :=
  l.zones.find? (fun v => v.alias_ == index)

/-- Integer `Ord::cmp` (the `u32` comparison inside the tuple `cmp`). -/
def natCmp (a b : Nat) : Ordering :=
  if a < b then .lt else if a = b then .eq else .gt

/-- `Ord::cmp` on Rust `String`s: lexicographic order (UTF-8 byte order
coincides with code-point order, which is `String.lt` here), written with
the equality test first. -/
def strCmp (a b : String) : Ordering :=
  if a = b then .eq else if a < b then .lt else .gt

/-- Hand-written `impl Ord for Zone` (data.rs lines 52-60):
`(self.alias, &self.layer, &self.dimension).cmp(&(other.alias,
&other.layer, &other.dimension))` — lexicographic on the triple, ignoring
`local` and `area`.  (`impl PartialOrd` at lines 62-70 is the same
comparison wrapped in `Some`.) -/
def Zone.cmp (a b : Zone) : Ordering :=
  (natCmp a.alias_ b.alias_).then ((strCmp a.layer b.layer).then (strCmp a.dimension b.dimension))

/-- The `#[derive(PartialEq)]` equality of `Zone`: all five fields. -/
def Zone.beqDerived (a b : Zone) : Bool :=
  a.alias_ == b.alias_ && a.local_ == b.local_ && a.dimension == b.dimension
    && a.layer == b.layer && a.area == b.area

end RmData

namespace RmSpec

/-! ### Spec-modelled session-selection handling (claim C1)

The parser revision that handles the "session/expedition selected" match
by splitting the `\w\d` capture into a tier letter and a raw expedition
index and emitting `Token::Expedition` is absent from the source
snapshot; only its declaration (`data.rs` `Token::Expedition`) is
present.  The two definitions below are modelled from the spec. -/

/-- Modelled from the spec: the expedition-index anomaly correction of
§4.3 state 2 — "for rundown `R8`, tier letters `{A, C, D, E}`, and a raw
expedition index of exactly `2`, the index is used as-is; in every other
combination the raw index is incremented by one before use". -/
def correctedExpeditionIndex (r : RmData.Rundown) (tier : Char) (raw : Nat) : Nat :=
  if r = .R8 ∧ tier ∈ (['A', 'C', 'D', 'E'] : List Char) ∧ raw = 2 then raw else raw + 1

/-- Modelled from the spec: the `Token::Expedition` emitted on a
"session/expedition selected" match — "resolve `rundown_code` to a
`Rundown` (default `Modded` if unrecognized); apply the expedition-index
anomaly correction ...; emit `Expedition(rundown, tier, corrected_index)`". -/
def sessionSelectedToken (code : Nat) (tier : Char) (raw : Nat) : RmData.Token :=
  .Expedition (RmData.resolveRundown code) (String.mk [tier])
    (correctedExpeditionIndex (RmData.resolveRundown code) tier raw)

end RmSpec

namespace RmTail

/-! ### Spec-modelled Tailer (claim C2)

The `Tail` revision implementing the `TailCmd`/`TailMsg` interface that
`Parser::parser` consumes (`TailCmd::{Open, Stop}` upstream,
`TailMsg::{Content, NewFile, Stop}` downstream) is absent from the source
snapshot: `parser.rs` imports and pattern-matches these types, but
`tail.rs` is a superseded revision whose downstream channel is a plain
`Sender<String>` with no `NewFile` signal.  The loop below is modelled
from the spec, §4.1: "on `Open`, closes any previously open handle, opens
the new path for read, and emits a `NewFile` signal downstream before
resuming reads.  On each poll tick ... reads all bytes available since
the last successful read and, if non-empty, emits a `Content(bytes)`
delta; if no file is open, it is a no-op.  `Stop` causes the tick loop to
terminate after flushing a final `Stop` signal downstream." -/

/-- Commands accepted by the Tailer (`TailCmd`). -/
inductive TailCmd where
  | open_ (path : String)
  | stop
deriving DecidableEq, Repr

/-- Messages the Tailer sends downstream (`TailMsg`). -/
inductive TailMsg where
  | content (s : String)
  | newFile
  | stop
deriving DecidableEq, Repr

/-- One iteration's input: either a command arrived on the command
channel, or the poll tick fired and `s` is what the read returned
(empty when nothing was appended or no file is open). -/
inductive TailEvent where
  | cmd (c : TailCmd)
  | tick (s : String)
deriving DecidableEq, Repr

/-- Modelled from the spec: the Tailer's only state is which file handle
is currently open. -/
structure TailState where
  file : Option String
deriving DecidableEq, Repr

/-- Modelled from the spec: one loop iteration — the emitted downstream
messages and whether the loop terminates. -/
def tailStep (st : TailState) : TailEvent → TailState × List TailMsg × Bool
  | .cmd (.open_ p) => (⟨some p⟩, [.newFile], false)
  | .cmd .stop => (st, [.stop], true)
  | .tick s => (st, if st.file.isSome ∧ s ≠ "" then [.content s] else [], false)

/-- Modelled from the spec: the Tailer loop over a sequence of inputs,
concatenating the downstream messages in order. -/
def tailRun (st : TailState) : List TailEvent → List TailMsg
  | [] => []
  | e :: es =>
    let (st', out, halt) := tailStep st e
    out ++ (if halt then [] else tailRun st' es)

end RmTail

namespace RmParser

/-! ### `rm-core/src/parser.rs` — the parser thread and its regexes

All regexes in `parser.rs::re` are `(?m)` patterns whose matches start at
a line start (every pattern begins with `^`, optionally followed by
`.*`/`.*?`, which do not cross `'\n'`) and end at a line end (`.*$`).
They are therefore embedded as line matchers applied to
`splitLines buffer`; greedy `.*` picks the last position at which the
remainder matches (`lastPosMatch`), lazy `.*?` the first
(`firstPosMatch`), and `\d+`/`\w+` captures are maximal runs. -/

/-- `parser.rs` `Zone` (lines 26-33). -/
structure Zone where
  alias_ : Nat
  local_ : Nat
  dimension : String
  layer : String
  area : Option Char
deriving DecidableEq, Repr

/-- `parser.rs` `Rundown` (lines 63-76, `#[repr(u8)]`, no `Tutorial`). -/
inductive Rundown where
  | Modded
  | R7
  | R1
  | R2
  | R3
  | R8
  | R4
  | R5
  | R6
deriving DecidableEq, Repr

/-- `strum`-generated `Rundown::from_repr` for the `parser.rs` enum:
`Modded = 0, R7 = 31, R1 = 32, R2 = 33, R3 = 34, R8 = 35, R4 = 37,
R5 = 38, R6 = 41`. -/
def Rundown.fromRepr (n : Nat) : Option Rundown :=
  if n = 0 then some .Modded
  else if n = 31 then some .R7
  else if n = 32 then some .R1
  else if n = 33 then some .R2
  else if n = 34 then some .R3
  else if n = 35 then some .R8
  else if n = 37 then some .R4
  else if n = 38 then some .R5
  else if n = 41 then some .R6
  else none

/-- `parser.rs` `ItemIdentifier` (lines 151-169). -/
inductive ItemIdentifier where
  | ID
  | PD
  | Cell
  | FogTurbine
  | Neonate
  | Cryo
  | GLP1
  | OSIP
  | Datasphere
  | PlantSample
  | HiSec
  | DataCubeR8
  | DataCube
  | GLP2
  | Cargo
deriving DecidableEq, Repr

/-- `parser.rs` `GatherItem` (lines 111-149, the `Zone`-carrying revision). -/
inductive GatherItem where
  | Key (zone : Zone) (name : String)
  | BulkheadKey (zone : Zone) (name : String)
  | HSU (zone : Zone) (localAreaId : Nat) (localAreaName : Char)
  | Generator (zone : Zone) (name : String) (itemIdx idx : Nat)
  | ID (zone : Zone) (seed : Nat)
  | PD (zone : Zone) (seed : Nat)
  | Cell (zone : Zone) (spawnZoneIdx : Nat)
  | FogTurbine (zone : Zone) (name : String)
  | Neonate (zone : Zone) (name : String)
  | Cryo (zone : Zone) (name : String)
  | GLP1 (zone : Zone) (seed : Nat)
  | OSIP (zone : Zone) (seed : Nat)
  | Datasphere (zone : Zone) (spawnZoneIdx : Nat)
  | PlantSample (zone : Zone) (seed : Nat)
  | HiSec (zone : Zone) (name : String)
  | DataCube (zone : Zone) (seed : Nat)
  | GLP2 (zone : Zone) (seed : Nat)
  | Cargo (zone : Zone) (name : String)
deriving DecidableEq, Repr

/-- `parser.rs` `InvarianceMethod` (lines 50-60). -/
inductive InvarianceMethod where
  | All
  | Any (zones : Nat) (filter : Option ItemIdentifier) (maxItems : Option Nat)
  | ByGatherable (item : ItemIdentifier)
deriving DecidableEq, Repr

/-- `parser.rs` `TimerEntry` (lines 42-48). -/
inductive TimerEntry where
  | Start
  | Zone (zone : Zone)
  | Invariance (zones : List Zone) (method : InvarianceMethod)
  | End
deriving DecidableEq, Repr

/-- `parser.rs` `Level` (lines 78-85).  The `maps : Vec<GatherableMap>`
field holds `glam::Vec2` IEEE floating-point polygons; it is never
written by `Parser::parser` (always `Default`, the empty vector) and is
not modelled. -/
structure Level where
  rundown : Rundown
  expName : String
  gathatableItems : List GatherItem
  zones : List TimerEntry
deriving DecidableEq, Repr

/-- `parser.rs` `ParserMsg` (lines 244-255). -/
inductive ParserMsg where
  | LevelSeeds (build host session : Nat)
  | LevelInit (level : Level)
  | GeneratedZone (zone : Zone)
  | Gatherable (item : GatherItem)
  | LevelStart
  | ZoneDoorOpened
  | LevelFinish
  | NewFile
deriving DecidableEq, Repr

/-- `parser.rs` `ParserState` (lines 257-267); `LevelSeeds` is the
`#[default]`. -/
inductive ParserState where
  | LevelSeeds
  | LevelSelected
  | LevelGeneration
  | ItemGeneration
  | ElevatorDropFinish
  | LevelFinish
  | NotInLevel
deriving DecidableEq, Repr

/-- `parser.rs` `ParserManager` (lines 269-284): the append-only text
buffer, the `pos` cursor (last match end, in bytes) and the life-cycle
state.  `Default` is `("", 0, LevelSeeds)`. -/
structure ParserManager where
  buffer : String
  pos : Nat
  state : ParserState
deriving DecidableEq, Repr

/-- `ParserManager::default()`. -/
def ParserManager.default : ParserManager := ⟨"", 0, .LevelSeeds⟩

/-! #### `re::BUILDER_LEVEL_SEEDS`
`(?m)^.*Builder\.Build.*buildSeed:\s(?<build>\d+)\shostIDSeed:\s(?<hostId>\d+)\ssessionSeed:\s(?<session>\d+).*$` -/

/-- The part of `BUILDER_LEVEL_SEEDS` from `buildSeed:` on, at a fixed
position in the line. -/
def seedsTail (cs : List Char) : Option (List Char × List Char × List Char) := do
  let r ← litM "buildSeed:".toList cs
  let r ← wsOne r
  let (b, r) ← digitsM r
  let r ← wsOne r
  let r ← litM "hostIDSeed:".toList r
  let r ← wsOne r
  let (h, r) ← digitsM r
  let r ← wsOne r
  let r ← litM "sessionSeed:".toList r
  let r ← wsOne r
  let (sd, _) ← digitsM r
  some (b, h, sd)

/-- Greedy scan for `BUILDER_LEVEL_SEEDS`: `seedsTail` at the last
position at which it succeeds with an occurrence of `Builder.Build`
(reached through the two greedy `.*`) ending at or before it; `seen` is
the part of the line before the current position. -/
def seedsGo (seen rest : List Char) : Option (List Char × List Char × List Char) :=
  match rest with
  | [] => none
  | c :: rs =>
    match seedsGo (seen ++ [c]) rs with
    | some t => some t
    | none => if containsSub "Builder.Build".toList seen then seedsTail rest else none

/-- One line of the buffer against `BUILDER_LEVEL_SEEDS`, yielding the
three captured digit strings. -/
def seedsLineMatch (l : List Char) : Option (List Char × List Char × List Char) :=
  seedsGo [] l

/-! #### `re::DROP_SERVER_MANAGER_NEW_SESSION`
`(?m)^.*ServerManager:\s'new\ssession.*?rundown:\sLocal_(?<rundown_idx>\d+),\sexpedition:\s(?<rundown_exp>\w\d).*$` -/

/-- The continuation from `rundown:` on (the target of the lazy `.*?`):
captures the rundown code digits and the two-character `\w\d` expedition
name. -/
def sessCont (cs : List Char) : Option (List Char × Char × Char) := do
  let r ← litM "rundown:".toList cs
  let r ← wsOne r
  let r ← litM "Local_".toList r
  let (idx, r) ← digitsM r
  let r ← litM ",".toList r
  let r ← wsOne r
  let r ← litM "expedition:".toList r
  let r ← wsOne r
  match r with
  | w :: d :: _ => if isWordChar w && d.isDigit then some (idx, w, d) else none
  | _ => none

/-- `DROP_SERVER_MANAGER_NEW_SESSION` from `ServerManager:` on. -/
def sessTail (cs : List Char) : Option (List Char × Char × Char) := do
  let r ← litM "ServerManager:".toList cs
  let r ← wsOne r
  let r ← litM "'new".toList r
  let r ← wsOne r
  let r ← litM "session".toList r
  firstPosMatch sessCont r

/-- One line against `DROP_SERVER_MANAGER_NEW_SESSION` (greedy `^.*`). -/
def sessionLineMatch (l : List Char) : Option (List Char × Char × Char) :=
  lastPosMatch sessTail l

/-! #### `re::SETUP_FLOOR_BATCH_START` / `re::SETUP_FLOOR_BATCH_END`
`(?m)^Next\sBatch:\sSetupFloor.*$` and `(?m)^.*Last\sBatch:\sSetupFloor.*$` -/

/-- `SETUP_FLOOR_BATCH_START` is anchored at the line start (no leading
`.*`), so its `m.start()` is the start of the line. -/
def setupFloorStartM (cs : List Char) : Option (List Char) := do
  let r ← litM "Next".toList cs
  let r ← wsOne r
  let r ← litM "Batch:".toList r
  let r ← wsOne r
  litM "SetupFloor".toList r

/-- Does a line match `SETUP_FLOOR_BATCH_START`? -/
def startLineMatch (l : List Char) : Bool :=
  (setupFloorStartM l).isSome

/-- The `Last\sBatch:\sSetupFloor` fragment of `SETUP_FLOOR_BATCH_END`. -/
def setupFloorEndM (cs : List Char) : Option (List Char) := do
  let r ← litM "Last".toList cs
  let r ← wsOne r
  let r ← litM "Batch:".toList r
  let r ← wsOne r
  litM "SetupFloor".toList r

/-- Does a line match `SETUP_FLOOR_BATCH_END`?  Its `.*$` means
`m.end()` is the end of the line. -/
def endLineMatch (l : List Char) : Bool :=
  (lastPosMatch setupFloorEndM l).isSome

/-! #### `re::ZONE_CREATED`
`(?m)^.*?Alias: (?<alias>\d+).*aliasOffset: \w+_(?<local>\d+).*\s.*?Zone\sCreated.*?in\s(?<dim>\w+)\s(?<layer>\w+).*$`

The interior `\s` is the newline between the two lines of a
zone-creation stanza (a `CreateZone` line followed by a `Zone Created`
line — the only form the log emits, per the source's commented-out
`create_zone`/`zone_created` helpers and spec §4.3 state 3), so a match
is a pair of adjacent lines. -/

/-- `\w+_(?<local>\d+)` after `aliasOffset: `: the greedy `\w+` places
`_` at the last underscore of the word run that is followed by a digit
and preceded by at least one word character; the capture is the maximal
digit run after it.  This scans the word run with its first character
removed, so the underscore position is at least 1. -/
def lastUnderscoreDigits : List Char → Option (List Char)
  | [] => none
  | c :: rest =>
    match lastUnderscoreDigits rest with
    | some ds => some ds
    | none =>
      if c = '_' then
        match rest.takeWhile Char.isDigit with
        | [] => none
        | ds => some ds
      else none

/-- `\w+_(?<local>\d+)` at a fixed position. -/
def wUnderscoreDigits (cs : List Char) : Option (List Char) :=
  match cs.takeWhile isWordChar with
  | [] => none
  | _ :: w => lastUnderscoreDigits w

/-- `aliasOffset: \w+_(?<local>\d+)` at a fixed position (the target of
the greedy `.*` after the alias capture). -/
def aliasOffCont (cs : List Char) : Option (List Char) := do
  let r ← litM "aliasOffset: ".toList cs
  wUnderscoreDigits r

/-- The first-line part of `ZONE_CREATED` from `Alias: ` on: captures
the alias digits, then the local-index digits after the last
`aliasOffset: ` occurrence. -/
def partACont (cs : List Char) : Option (List Char × List Char) := do
  let r ← litM "Alias: ".toList cs
  let (a, r) ← digitsM r
  let l ← lastPosMatch aliasOffCont r
  some (a, l)

/-- A `CreateZone` line against the first-line part of `ZONE_CREATED`
(lazy `^.*?`). -/
def partA (l : List Char) : Option (List Char × List Char) :=
  firstPosMatch partACont l

/-- `in\s(?<dim>\w+)\s(?<layer>\w+)` at a fixed position. -/
def partBCont2 (cs : List Char) : Option (List Char × List Char) := do
  let r ← litM "in".toList cs
  let r ← wsOne r
  let (d, r) ← wordM r
  let r ← wsOne r
  let (lay, _) ← wordM r
  some (d, lay)

/-- `Zone\sCreated.*?in\s(?<dim>\w+)\s(?<layer>\w+)` at a fixed
position. -/
def partBCont1 (cs : List Char) : Option (List Char × List Char) := do
  let r ← litM "Zone".toList cs
  let r ← wsOne r
  let r ← litM "Created".toList r
  firstPosMatch partBCont2 r

/-- A `Zone Created` line against the second-line part of
`ZONE_CREATED` (lazy `.*?` after the newline). -/
def partB (l : List Char) : Option (List Char × List Char) :=
  firstPosMatch partBCont1 l

/-- `re::ZONE_CREATED.captures_iter` over the lines of the
`buffer[start..end]` slice, with the `Zone` construction and the
fallible `alias.parse::<u32>()?` / `local.parse::<u32>()?` of the
`LevelGeneration` arm (parser.rs lines 453-465).  A match consumes its
two lines (`.*$` ends it at the end of the second line, and iteration
resumes after the match); a line that starts no stanza is skipped. -/
def zonesScan : List (List Char) → Except Unit (List Zone)
  | [] => .ok []
  | [_] => .ok []
  | l1 :: l2 :: rest =>
    match partA l1, partB l2 with
    | some (a, lo), some (d, lay) => do
      let av ← parseU32 a
      let lv ← parseU32 lo
      let zs ← zonesScan rest
      .ok (⟨av, lv, String.mk d, String.mk lay, none⟩ :: zs)
    | _, _ => zonesScan (l2 :: rest)

/-- One two-line stanza's `Zone`, as `zonesScan` builds it (used to
state claim C6). -/
def stanzaZone (l1 l2 : List Char) : Option Zone :=
  match partA l1, partB l2 with
  | some (a, lo), some (d, lay) =>
    if toNatDigits a < 4294967296 ∧ toNatDigits lo < 4294967296 then
      some ⟨toNatDigits a, toNatDigits lo, String.mk d, String.mk lay, none⟩
    else none
  | _, _ => none

/-- The two lines of each stanza pair, in file order. -/
def flattenPairs : List (List Char × List Char) → List (List Char)
  | [] => []
  | pr :: rest => pr.1 :: pr.2 :: flattenPairs rest

/-- The `TailMsg::Content(s)` arm of `Parser::parser` (lines 381-476):
append the delta to the buffer, then run the current state's single
pattern scan over the whole buffer.  `Except.error` is a `?`-propagated
conversion failure (which returns from `Parser::parser`, ending the
parse loop) or the `&buffer[start..end]` slice panic. -/
def stepContent (pm : ParserManager) (s : String) : Except Unit (ParserManager × List ParserMsg) :=
  let buf := pm.buffer ++ s
  let lines := splitLines buf.toList
  match pm.state with
  | .LevelSeeds =>
    match lastMatchIdx seedsLineMatch lines with
    | none => .ok ({ pm with buffer := buf }, [])
    | some (i, b, h, sd) => do
      let bv ← parseU32 b
      let hv ← parseU32 h
      let sv ← parseU32 sd
      .ok (⟨buf, byteEnd lines i, .LevelSelected⟩, [.LevelSeeds bv hv sv])
  | .LevelSelected =>
    match lastMatchIdx sessionLineMatch lines with
    | none => .ok ({ pm with buffer := buf }, [])
    | some (i, idx, w, d) => do
      let iv ← parseU8 idx
      .ok (⟨buf, byteEnd lines i, .LevelGeneration⟩,
        [.LevelInit ⟨(Rundown.fromRepr iv).getD .Modded, String.mk [w, d], [], []⟩])
  | .LevelGeneration =>
    match lastIdxWhere startLineMatch lines, lastIdxWhere endLineMatch lines with
    | some i, some j =>
      if i ≤ j then do
        let zs ← zonesScan ((lines.drop i).take (j + 1 - i))
        .ok (⟨buf, pm.pos, .ItemGeneration⟩, zs.map .GeneratedZone)
      else .error ()
    | _, _ => .ok ({ pm with buffer := buf }, [])
  | .ItemGeneration => .ok ({ pm with buffer := buf }, [])
  | .ElevatorDropFinish => .ok ({ pm with buffer := buf }, [])
  | .LevelFinish => .ok ({ pm with buffer := buf }, [])
  | .NotInLevel => .ok ({ pm with buffer := buf }, [])

/-- One received `TailMsg` (the `match val` of `Parser::parser`): the
`NewFile` arm (lines 477-481) clears the buffer, resets the state to
`LevelSeeds` and forwards `ParserMsg::NewFile` — it does not touch
`pos`. -/
def step (pm : ParserManager) : RmTail.TailMsg → Except Unit (ParserManager × List ParserMsg)
  | .content s => stepContent pm s
  | .newFile => .ok (⟨"", pm.pos, .LevelSeeds⟩, [.NewFile])
  | .stop => .ok (pm, [])

/-- The `Parser::parser` receive loop over a sequence of `TailMsg`s:
`Stop` breaks the loop; a `?` failure aborts the whole run. -/
def parserRun (pm : ParserManager) : List RmTail.TailMsg → Except Unit (ParserManager × List ParserMsg)
  | [] => .ok (pm, [])
  | .stop :: _ => .ok (pm, [])
  | m :: rest => do
    let (pm', out) ← step pm m
    let (pmf, outs) ← parserRun pm' rest
    .ok (pmf, out ++ outs)

end RmParser

/-! ## Claim theorems -/

/-! ### Claim theorems C1, C5, C9, C10 -/

/-- Claim C1: on a "session/expedition selected" match the emitted
expedition index equals the raw index exactly when the rundown is `R8`,
the tier letter is one of `A, C, D, E` and the raw index is `2`, and
equals the raw index plus one in every other combination; in particular
`(R8, C, 2) ↦ 2`, `(R8, B, 2) ↦ 3` and `(R1, A, 0) ↦ 1` (codes 35 and 32
resolve to `R8` and `R1`). -/
theorem c1_expedition_index_correction :
    (∀ (r : RmData.Rundown) (t : Char) (i : Nat),
      RmSpec.correctedExpeditionIndex r t i =
        if r = RmData.Rundown.R8 ∧ (t = 'A' ∨ t = 'C' ∨ t = 'D' ∨ t = 'E') ∧ i = 2
        then i else i + 1)
    ∧ RmSpec.sessionSelectedToken 35 'C' 2 = .Expedition .R8 "C" 2
    ∧ RmSpec.sessionSelectedToken 35 'B' 2 = .Expedition .R8 "B" 3
    ∧ RmSpec.sessionSelectedToken 32 'A' 0 = .Expedition .R1 "A" 1 := by
  refine ⟨fun r t i => ?_, rfl, rfl, rfl⟩
  simp only [RmSpec.correctedExpeditionIndex, List.mem_cons, List.not_mem_nil, or_false]

/-- Claim C5: resolving a numeric rundown code never fails — for every
`u16` code outside the known build-specific set
`{31, 32, 33, 34, 35, 37, 38, 39, 41}`, `from_repr(code).unwrap_or(Modded)`
yields the default `Modded` (and, being a total function into `Rundown`,
it never produces a parse error). -/
theorem c5_unknown_rundown_is_modded (c : Nat) (hdom : c < 65536)
    (hn : c ∉ ([31, 32, 33, 34, 35, 37, 38, 39, 41] : List Nat)) :
    RmData.resolveRundown c = RmData.Rundown.Modded := by
  simp only [List.mem_cons, List.not_mem_nil, or_false, not_or] at hn
  obtain ⟨h31, h32, h33, h34, h35, h37, h38, h39, h41⟩ := hn
  unfold RmData.resolveRundown RmData.Rundown.fromRepr
  split_ifs <;> simp_all [Option.getD]

/-- Claim C5 witness: the unrecognized code 99 resolves to `Modded`. -/
theorem c5_unknown_rundown_is_modded_witness :
    RmData.resolveRundown 99 = RmData.Rundown.Modded :=
  c5_unknown_rundown_is_modded 99 (by decide) (by decide)

/-- `List.find?` on `l₁ ++ x :: l₂` returns `x` when nothing in `l₁`
matches and `x` does: first-match-in-list-order for `Iterator::find`. -/
theorem find?_append_first (p : α → Bool) (l₁ l₂ : List α) (x : α)
    (h₁ : ∀ y ∈ l₁, p y = false) (hx : p x = true) :
    (l₁ ++ x :: l₂).find? p = some x := by
  induction l₁ with
  | nil => simp [List.find?, hx]
  | cons a l ih =>
    have ha : p a = false := h₁ a (by simp)
    simp only [List.cons_append, List.find?, ha]
    exact ih fun y hy => h₁ y (by simp [hy])

/-- Claim C9: `Level`'s `Index` impls are partial — with no zone matching
the key (an alias, or an alias-dimension pair) the underlying
`find(..)` yields `None` and the `.unwrap()` panics (the `none` case
here), and with at least one match they return the first matching zone
in list order. -/
theorem c9_level_index_first_or_panic (l : RmData.Level) (a : Nat) (d : String) :
    ((∀ z ∈ l.zones, z.alias_ ≠ a ∨ z.dimension ≠ d) → l.indexPair (a, d) = none)
    ∧ (∀ l₁ z l₂, l.zones = l₁ ++ z :: l₂ → z.alias_ = a → z.dimension = d →
        (∀ y ∈ l₁, y.alias_ ≠ a ∨ y.dimension ≠ d) → l.indexPair (a, d) = some z)
    ∧ ((∀ z ∈ l.zones, z.alias_ ≠ a) → l.indexAlias a = none)
    ∧ (∀ l₁ z l₂, l.zones = l₁ ++ z :: l₂ → z.alias_ = a →
        (∀ y ∈ l₁, y.alias_ ≠ a) → l.indexAlias a = some z) := by
  refine ⟨fun h => ?_, fun l₁ z l₂ hz hza hzd h₁ => ?_, fun h => ?_,
    fun l₁ z l₂ hz hza h₁ => ?_⟩
  · rw [RmData.Level.indexPair, List.find?_eq_none]
    intro z hzin
    rcases h z hzin with h' | h' <;> simp [h']
  · rw [RmData.Level.indexPair, hz]
    refine find?_append_first _ l₁ l₂ z (fun y hy => ?_) (by simp [hza, hzd])
    rcases h₁ y hy with h' | h' <;> simp [h']
  · rw [RmData.Level.indexAlias, List.find?_eq_none]
    intro z hzin
    simp [h z hzin]
  · rw [RmData.Level.indexAlias, hz]
    exact find?_append_first _ l₁ l₂ z (fun y hy => by simp [h₁ y hy]) (by simp [hza])

/-- Claim C9 witness: on a concrete two-zone level, looking up a missing
alias yields `none` (the panic case) and looking up alias 7 in dimension
`Reality` returns the first matching zone. -/
theorem c9_level_index_first_or_panic_witness :
    RmData.Level.indexAlias
        ⟨none, none, none,
          [⟨5, 0, "Reality", "MainLayer", none⟩, ⟨7, 1, "Reality", "MainLayer", none⟩],
          [], []⟩ 9 = none
    ∧ RmData.Level.indexPair
        ⟨none, none, none,
          [⟨5, 0, "Reality", "MainLayer", none⟩, ⟨7, 1, "Reality", "MainLayer", none⟩],
          [], []⟩ (7, "Reality") = some ⟨7, 1, "Reality", "MainLayer", none⟩ := by
  constructor
  · exact (c9_level_index_first_or_panic _ 9 "Reality").2.2.1 (by decide)
  · exact (c9_level_index_first_or_panic _ 7 "Reality").2.1
      [⟨5, 0, "Reality", "MainLayer", none⟩] ⟨7, 1, "Reality", "MainLayer", none⟩ []
      rfl rfl rfl (by decide)

/-- Claim C10: `Zone`'s hand-written `cmp` looks only at
`(alias, layer, dimension)`, so two zones agreeing on that triple but
differing in `local` or `area` compare `Equal` while the derived
`PartialEq` equality is `false` — the order is coarser than equality. -/
theorem c10_zone_order_coarser_than_eq (z₁ z₂ : RmData.Zone)
    (ha : z₁.alias_ = z₂.alias_) (hl : z₁.layer = z₂.layer)
    (hd : z₁.dimension = z₂.dimension)
    (hne : z₁.local_ ≠ z₂.local_ ∨ z₁.area ≠ z₂.area) :
    RmData.Zone.cmp z₁ z₂ = .eq ∧ RmData.Zone.beqDerived z₁ z₂ = false := by
  constructor
  · simp [RmData.Zone.cmp, RmData.natCmp, RmData.strCmp, ha, hl, hd, Ordering.then]
  · rcases hne with h | h <;>
      simp [RmData.Zone.beqDerived, h]

/-- Claim C10 witness: two concrete zones sharing
`(alias, layer, dimension)` but with different `local` compare `Equal`
yet are not equal. -/
theorem c10_zone_order_coarser_than_eq_witness :
    RmData.Zone.cmp ⟨3, 0, "Reality", "MainLayer", none⟩ ⟨3, 1, "Reality", "MainLayer", some 'A'⟩ = .eq
    ∧ RmData.Zone.beqDerived ⟨3, 0, "Reality", "MainLayer", none⟩
        ⟨3, 1, "Reality", "MainLayer", some 'A'⟩ = false :=
  c10_zone_order_coarser_than_eq _ _ rfl rfl rfl (by decide)

/-- Claim C2: for every input sequence containing an `Open(path)` that is
not cut off by an earlier `Stop` command, the downstream stream emitted
from the `Open` onward begins with exactly one `NewFile`, before any
`Content` delta read from the newly opened file — so at least one
`NewFile` precedes the first `Content` that follows any `Open`. -/
theorem c2_newfile_before_content (st : RmTail.TailState)
    (pre post : List RmTail.TailEvent) (p : String)
    (h : RmTail.TailEvent.cmd RmTail.TailCmd.stop ∉ pre) :
    RmTail.tailRun st (pre ++ RmTail.TailEvent.cmd (RmTail.TailCmd.open_ p) :: post) =
      RmTail.tailRun st pre ++ RmTail.TailMsg.newFile :: RmTail.tailRun ⟨some p⟩ post := by
  induction pre generalizing st with
  | nil => simp [RmTail.tailRun, RmTail.tailStep]
  | cons e es ih =>
    have he : e ≠ RmTail.TailEvent.cmd RmTail.TailCmd.stop := fun hc => h (by simp [hc])
    have hes : RmTail.TailEvent.cmd RmTail.TailCmd.stop ∉ es := fun hc => h (by simp [hc])
    cases e with
    | cmd c =>
      cases c with
      | open_ q => simp [RmTail.tailRun, RmTail.tailStep, ih _ hes]
      | stop => exact absurd rfl he
    | tick s => simp [RmTail.tailRun, RmTail.tailStep, ih _ hes]

/-- Claim C2 witness: a concrete session — a tick before any file is
open, an `Open`, then two reads — emits `NewFile` immediately after the
`Open` and before the `Content` deltas from the new file. -/
theorem c2_newfile_before_content_witness :
    RmTail.tailRun ⟨none⟩
        [RmTail.TailEvent.tick "x", RmTail.TailEvent.cmd (RmTail.TailCmd.open_ "LOG"),
          RmTail.TailEvent.tick "a", RmTail.TailEvent.tick "b"] =
      [RmTail.TailMsg.newFile, RmTail.TailMsg.content "a", RmTail.TailMsg.content "b"] := by
  rw [show [RmTail.TailEvent.tick "x", RmTail.TailEvent.cmd (RmTail.TailCmd.open_ "LOG"),
        RmTail.TailEvent.tick "a", RmTail.TailEvent.tick "b"] =
      [RmTail.TailEvent.tick "x"] ++ RmTail.TailEvent.cmd (RmTail.TailCmd.open_ "LOG") ::
        [RmTail.TailEvent.tick "a", RmTail.TailEvent.tick "b"] from rfl,
    c2_newfile_before_content ⟨none⟩ [RmTail.TailEvent.tick "x"]
      [RmTail.TailEvent.tick "a", RmTail.TailEvent.tick "b"] "LOG" (by decide)]
  simp [RmTail.tailRun, RmTail.tailStep]

/-- Claim C3 counterexample: a Content delta on which
`BUILDER_LEVEL_SEEDS` matches but the captured `build` digits overflow
`u32` (`4294967296 = 2^32`) makes `Parser::parser` return the conversion
error — the parse aborts instead of skipping the match and continuing. -/
theorem c3_counterexample_malformed_capture :
    RmParser.stepContent RmParser.ParserManager.default
        "Builder.Build buildSeed: 4294967296 hostIDSeed: 1 sessionSeed: 1" = .error () := by
  rfl

/-- Claim C3 (amended): whenever the parser is awaiting seeds and the
last `BUILDER_LEVEL_SEEDS` match in the buffer carries a `build` capture
that does not fit in `u32`, processing the Content delta aborts the
whole parse — the `?` operator propagates the conversion error out of
`Parser::parser` instead of skipping the match. -/
theorem c3_malformed_capture_aborts (pm : RmParser.ParserManager) (s : String)
    (i : Nat) (b h sd : List Char)
    (hstate : pm.state = .LevelSeeds)
    (hmatch : lastMatchIdx RmParser.seedsLineMatch (splitLines (pm.buffer ++ s).toList) =
      some (i, b, h, sd))
    (hovf : ¬ toNatDigits b < 4294967296) :
    RmParser.stepContent pm s = .error () := by
  obtain ⟨buf, pos, st⟩ := pm
  simp only at hstate hmatch
  subst hstate
  simp only [RmParser.stepContent, hmatch, parseU32, hovf, if_false]
  rfl

/-- Claim C3 witness: the amended theorem applied at a concrete delta
whose `build` capture is `99999999999`. -/
theorem c3_malformed_capture_aborts_witness :
    RmParser.stepContent RmParser.ParserManager.default
        "Builder.Build buildSeed: 99999999999 hostIDSeed: 1 sessionSeed: 1" = .error () :=
  c3_malformed_capture_aborts RmParser.ParserManager.default
    "Builder.Build buildSeed: 99999999999 hostIDSeed: 1 sessionSeed: 1"
    0 "99999999999".toList "1".toList "1".toList rfl (by rfl) (by decide)

/-- Claim C4 (code bug): splitting a Content delta changes the emitted
events.  Delivering the seeds line whole emits `LevelSeeds(1, 2, 34)`,
but delivering the same text split just before the final digit emits
`LevelSeeds(1, 2, 3)` — the `(?m)` `$` matches the temporary end of the
buffer, so the truncated `sessionSeed` capture `3` is committed on the
first delta and the parser has already left the seeds state when the
rest arrives. -/
theorem c4_split_delivery_diverges :
    RmParser.parserRun RmParser.ParserManager.default
        [.content "Builder.Build buildSeed: 1 hostIDSeed: 2 sessionSeed: 34"] =
      .ok (⟨"Builder.Build buildSeed: 1 hostIDSeed: 2 sessionSeed: 34", 56, .LevelSelected⟩,
        [.LevelSeeds 1 2 34])
    ∧ RmParser.parserRun RmParser.ParserManager.default
        [.content "Builder.Build buildSeed: 1 hostIDSeed: 2 sessionSeed: 3", .content "4"] =
      .ok (⟨"Builder.Build buildSeed: 1 hostIDSeed: 2 sessionSeed: 34", 55, .LevelSelected⟩,
        [.LevelSeeds 1 2 3])
    ∧ RmParser.ParserMsg.LevelSeeds 1 2 3 ≠ RmParser.ParserMsg.LevelSeeds 1 2 34 := by
  refine ⟨by rfl, by rfl, by decide⟩

/-- Claim C7: while awaiting zone generation, a buffer that contains a
`SetupFloor` batch-start marker but no batch-end marker produces no
events — in particular no `GeneratedZone` — and leaves the parser in
`LevelGeneration` (only the buffer grows), so the transition to
`ItemGeneration` happens only once the batch-end marker has been
observed. -/
theorem c7_no_batch_end_stays (pm : RmParser.ParserManager) (s : String)
    (hstate : pm.state = .LevelGeneration)
    (hstart : (lastIdxWhere RmParser.startLineMatch
      (splitLines (pm.buffer ++ s).toList)).isSome = true)
    (hend : lastIdxWhere RmParser.endLineMatch (splitLines (pm.buffer ++ s).toList) = none) :
    RmParser.stepContent pm s = .ok ({ pm with buffer := pm.buffer ++ s }, []) := by
  obtain ⟨buf, pos, st⟩ := pm
  simp only at hstate hend
  subst hstate
  simp only [RmParser.stepContent, hend]
  obtain ⟨i, hi⟩ := Option.isSome_iff_exists.mp hstart
  simp only at hi
  rw [hi]

/-- Claim C7 witness: a concrete buffer holding the batch-start marker
and one incomplete stanza but no end marker is absorbed without events
and without a state change. -/
theorem c7_no_batch_end_stays_witness :
    RmParser.stepContent ⟨"", 0, .LevelGeneration⟩
        "Next Batch: SetupFloor\nAlias: 5 aliasOffset: Zone_0" =
      .ok (⟨"Next Batch: SetupFloor\nAlias: 5 aliasOffset: Zone_0", 0, .LevelGeneration⟩, []) :=
  c7_no_batch_end_stays ⟨"", 0, .LevelGeneration⟩
    "Next Batch: SetupFloor\nAlias: 5 aliasOffset: Zone_0" rfl (by rfl) (by rfl)

/-- Claim C8 counterexample: after a seeds match sets the cursor to byte
56, a `NewFile` clears the buffer and state but leaves `pos = 56` — the
parse cursor is not reset to offset zero as the claim states. -/
theorem c8_counterexample_cursor_kept :
    RmParser.parserRun RmParser.ParserManager.default
        [.content "Builder.Build buildSeed: 1 hostIDSeed: 2 sessionSeed: 34", .newFile] =
      .ok (⟨"", 56, .LevelSeeds⟩, [.LevelSeeds 1 2 34, .NewFile])
    ∧ (56 : Nat) ≠ 0 := by
  refine ⟨by rfl, by decide⟩

/-- Claim C8 (amended): on `NewFile` the parser clears its text buffer,
returns to the initial seed-awaiting state and forwards the reset
downstream, but the parse cursor keeps its previous value (it is only
overwritten by the next pattern match), for every prior accumulated
state. -/
theorem c8_newfile_resets_buffer_not_cursor (pm : RmParser.ParserManager) :
    RmParser.step pm .newFile = .ok (⟨"", pm.pos, .LevelSeeds⟩, [.NewFile]) :=
  rfl

/-- `lastIdxWhere` finds nothing when no element satisfies `p`. -/
theorem lastIdxWhere_eq_none (p : α → Bool) (xs : List α)
    (h : ∀ x ∈ xs, p x = false) : lastIdxWhere p xs = none := by
  induction xs with
  | nil => rfl
  | cons a l ih =>
    have ha := h a (by simp)
    have hl := ih fun x hx => h x (by simp [hx])
    simp [lastIdxWhere, hl, ha]

/-- `lastIdxWhere` returns index 0 when only the head matches. -/
theorem lastIdxWhere_head (p : α → Bool) (x : α) (xs : List α)
    (hx : p x = true) (h : ∀ y ∈ xs, p y = false) :
    lastIdxWhere p (x :: xs) = some 0 := by
  simp [lastIdxWhere, lastIdxWhere_eq_none p xs h, hx]

/-- `lastIdxWhere` returns the final index when the final element
matches (whatever comes before). -/
theorem lastIdxWhere_append_last (p : α → Bool) (xs : List α) (x : α)
    (hx : p x = true) : lastIdxWhere p (xs ++ [x]) = some xs.length := by
  induction xs with
  | nil => simp [lastIdxWhere, hx]
  | cons a l ih => simp [lastIdxWhere, ih]

/-- A line that starts no stanza is skipped by `zonesScan`. -/
theorem zonesScan_cons_skip (l : List Char) (rest : List (List Char))
    (hA : RmParser.partA l = none) :
    RmParser.zonesScan (l :: rest) = RmParser.zonesScan rest := by
  cases rest with
  | nil => rfl
  | cons l2 r => simp [RmParser.zonesScan, hA]

/-- `zonesScan` over a run of well-formed two-line stanzas followed by a
final non-stanza line yields exactly the stanzas' zones, in order. -/
theorem zonesScan_pairs (prs : List (List Char × List Char)) (zs : List RmParser.Zone)
    (e : List Char)
    (h : List.Forall₂ (fun pr z => RmParser.stanzaZone pr.1 pr.2 = some z) prs zs) :
    RmParser.zonesScan (RmParser.flattenPairs prs ++ [e]) = .ok zs := by
  induction h with
  | nil => rfl
  | @cons pr z prs' zs' h₁ h₂ ih =>
    cases hA : RmParser.partA pr.1 with
    | none => simp [RmParser.stanzaZone, hA] at h₁
    | some alo =>
      cases hB : RmParser.partB pr.2 with
      | none => simp [RmParser.stanzaZone, hA, hB] at h₁
      | some dlay =>
        obtain ⟨a, lo⟩ := alo
        obtain ⟨d, lay⟩ := dlay
        simp only [RmParser.stanzaZone, hA, hB] at h₁
        by_cases hc : toNatDigits a < 4294967296 ∧ toNatDigits lo < 4294967296
        · rw [if_pos hc] at h₁
          have hz : (⟨toNatDigits a, toNatDigits lo, String.mk d, String.mk lay, none⟩ :
              RmParser.Zone) = z := Option.some.inj h₁
          show RmParser.zonesScan (pr.1 :: pr.2 :: (RmParser.flattenPairs prs' ++ [e])) = _
          simp only [RmParser.zonesScan, hA, hB, parseU32, hc.1, hc.2, if_true, ih]
          rw [← hz]
          rfl
        · rw [if_neg hc] at h₁
          exact absurd h₁ (by simp)

/-- Claim C6: in the zone-generation state, a buffer consisting of a
`SetupFloor` batch-start line, a sequence of well-formed two-line
zone-creation stanzas, and a batch-end line makes the parser emit
exactly one `GeneratedZone` event per stanza, in file order — none
dropped, none duplicated — and transition to `ItemGeneration`. -/
theorem c6_complete_batch_emits_zones_in_order
    (pm : RmParser.ParserManager) (s : String) (startL endL : List Char)
    (prs : List (List Char × List Char)) (zs : List RmParser.Zone)
    (hstate : pm.state = .LevelGeneration)
    (hlines : splitLines (pm.buffer ++ s).toList =
      startL :: (RmParser.flattenPairs prs ++ [endL]))
    (hstart : RmParser.startLineMatch startL = true)
    (hend : RmParser.endLineMatch endL = true)
    (hstartA : RmParser.partA startL = none)
    (hbody : ∀ l ∈ RmParser.flattenPairs prs, RmParser.startLineMatch l = false)
    (hendS : RmParser.startLineMatch endL = false)
    (hstanzas : List.Forall₂ (fun pr z => RmParser.stanzaZone pr.1 pr.2 = some z) prs zs)
    (hnodup : (zs.map RmParser.Zone.alias_).Nodup) :
    RmParser.stepContent pm s =
      .ok (⟨pm.buffer ++ s, pm.pos, .ItemGeneration⟩,
        zs.map RmParser.ParserMsg.GeneratedZone) := by
  obtain ⟨buf, pos, st⟩ := pm
  simp only at hstate hlines ⊢
  subst hstate
  have hstartIdx : lastIdxWhere RmParser.startLineMatch (splitLines (buf ++ s).toList) =
      some 0 := by
    rw [hlines]
    refine lastIdxWhere_head _ _ _ hstart ?_
    intro y hy
    rcases List.mem_append.mp hy with h' | h'
    · exact hbody y h'
    · rw [List.mem_singleton.mp h']
      exact hendS
  have hendIdx : lastIdxWhere RmParser.endLineMatch (splitLines (buf ++ s).toList) =
      some ((RmParser.flattenPairs prs).length + 1) := by
    rw [hlines, show startL :: (RmParser.flattenPairs prs ++ [endL]) =
        (startL :: RmParser.flattenPairs prs) ++ [endL] by simp,
      lastIdxWhere_append_last _ _ _ hend]
    simp
  have hlen : (splitLines (buf ++ s).toList).length = (RmParser.flattenPairs prs).length + 2 := by
    rw [hlines]
    simp
  simp only [RmParser.stepContent, hstartIdx, hendIdx]
  rw [if_pos (Nat.zero_le _), List.drop_zero,
    show (RmParser.flattenPairs prs).length + 1 + 1 - 0 =
      (splitLines (buf ++ s).toList).length by rw [hlen]; omega,
    List.take_length, hlines, zonesScan_cons_skip _ _ hstartA,
    zonesScan_pairs _ _ _ hstanzas]
  rfl

/-- Claim C6 witness: the theorem applied to a concrete complete batch
with stanzas for the distinct aliases `[10, 11, 12]` in that file order. -/
theorem c6_complete_batch_emits_zones_in_order_witness :
    RmParser.stepContent ⟨"", 0, .LevelGeneration⟩
        "Next Batch: SetupFloor\nAlias: 10 aliasOffset: Zone_0\nZone Created in Reality MainLayer\nAlias: 11 aliasOffset: Zone_1\nZone Created in Reality MainLayer\nAlias: 12 aliasOffset: Zone_2\nZone Created in Reality MainLayer\nLast Batch: SetupFloor" =
      .ok (⟨"Next Batch: SetupFloor\nAlias: 10 aliasOffset: Zone_0\nZone Created in Reality MainLayer\nAlias: 11 aliasOffset: Zone_1\nZone Created in Reality MainLayer\nAlias: 12 aliasOffset: Zone_2\nZone Created in Reality MainLayer\nLast Batch: SetupFloor",
          0, .ItemGeneration⟩,
        [.GeneratedZone ⟨10, 0, "Reality", "MainLayer", none⟩,
          .GeneratedZone ⟨11, 1, "Reality", "MainLayer", none⟩,
          .GeneratedZone ⟨12, 2, "Reality", "MainLayer", none⟩]) :=
  c6_complete_batch_emits_zones_in_order ⟨"", 0, .LevelGeneration⟩
    "Next Batch: SetupFloor\nAlias: 10 aliasOffset: Zone_0\nZone Created in Reality MainLayer\nAlias: 11 aliasOffset: Zone_1\nZone Created in Reality MainLayer\nAlias: 12 aliasOffset: Zone_2\nZone Created in Reality MainLayer\nLast Batch: SetupFloor"
    "Next Batch: SetupFloor".toList "Last Batch: SetupFloor".toList
    [("Alias: 10 aliasOffset: Zone_0".toList, "Zone Created in Reality MainLayer".toList),
      ("Alias: 11 aliasOffset: Zone_1".toList, "Zone Created in Reality MainLayer".toList),
      ("Alias: 12 aliasOffset: Zone_2".toList, "Zone Created in Reality MainLayer".toList)]
    [⟨10, 0, "Reality", "MainLayer", none⟩, ⟨11, 1, "Reality", "MainLayer", none⟩,
      ⟨12, 2, "Reality", "MainLayer", none⟩]
    rfl (by rfl) (by rfl) (by rfl) (by rfl) (by decide) (by rfl)
    (.cons (by rfl) (.cons (by rfl) (.cons (by rfl) .nil))) (by decide)
